import Mathlib

/-!
Shallow embedding of lira/tui/windows.py: the WindowContainer navigation
stack (push, pop, reset, focus hook), the ContentArea renderer for
document trees, the SidebarMenu pop-hook, and the StatusBar notification
sequence.  Definitions follow the source; external collaborators that are
not part of the repository sources (the document model option accessors,
the highlighter registry of lira.tui.utils.get_lexer, the asyncio event
loop) are modelled at their interface boundary as the spec describes.
-/

namespace Lira

/-- The closed set of document-node tags dispatched on by the renderer.
`Other` stands for any unrecognized tag, which the renderer ignores. -/
inductive Tag where
  | Section
  | Paragraph
  | CodeBlock
  | TestBlock
  | Text
  | Strong
  | Emphasis
  | Other
deriving DecidableEq

/-- A styled span of formatted text, the unit produced by
prompt_toolkit to_formatted_text: a (style, text) pair. -/
structure Span where
  style : String
  text : String
deriving DecidableEq

/-- Modelled from the spec: the named options of a document node
(produced by the external document model, which is not under the
repository sources given here).  Only the two options read by
windows.py are modelled: a section title and a code-block language.
Per the spec, an absent title degrades to an empty value. -/
structure NodeOptions where
  title : Option String
  language : String
deriving DecidableEq

/-- A document tree node: tag, options, ordered children, leaf text. -/
inductive DocumentNode where
  | mk (tagname : Tag) (options : NodeOptions) (children : List DocumentNode)
      (text : String)

def DocumentNode.tagname : DocumentNode → Tag
  | .mk t _ _ _ => t

def DocumentNode.options : DocumentNode → NodeOptions
  | .mk _ o _ _ => o

def DocumentNode.children : DocumentNode → List DocumentNode
  | .mk _ _ cs _ => cs

def DocumentNode.text : DocumentNode → String
  | .mk _ _ _ s => s

mutual

/-- Height of a document tree: 1 for a leaf, 1 plus the maximal child
height otherwise.  Used as a sufficient recursion-depth budget. -/
def DocumentNode.height : DocumentNode → Nat
  | .mk _ _ children _ => heightList children + 1

def heightList : List DocumentNode → Nat
  | [] => 0
  | c :: rest => max (DocumentNode.height c) (heightList rest)

end

mutual

/-- True when no node of the tree has a child tagged Section. -/
def noSectionChild : DocumentNode → Bool
  | .mk _ _ children _ => noSectionChildList children

def noSectionChildList : List DocumentNode → Bool
  | [] => true
  | c :: rest =>
    match c.tagname with
    | Tag.Section => false
    | _ => noSectionChild c && noSectionChildList rest

end

/-- Modelled from the spec: the highlighter registry behind
lira.tui.utils.get_lexer (not under the repository sources given here):
given a language identifier, return a token-producing highlighter or
none.  A highlighter turns source text into per-token styled spans. -/
def Registry : Type := String → Option (String → List Span)

/-- A registry that resolves no language at all. -/
def emptyRegistry : Registry := fun _ => none

/-- Split a character list into its newline-separated lines; the
newline characters themselves are dropped and restored on joining. -/
def splitLines : List Char → List (List Char)
  | [] => [[]]
  | c :: rest =>
    if c = '\n' then [] :: splitLines rest
    else
      match splitLines rest with
      | [] => [[c]]
      | l :: ls => (c :: l) :: ls

/-- True when the line has at least one non-whitespace character; this is
the default predicate of textwrap.indent. -/
def lineHasContent (l : List Char) : Bool := l.any (fun c => !c.isWhitespace)

/-- textwrap.indent of the text by two spaces: every line with
non-whitespace content gets the two-space prefix, and the lines are
joined back with newlines. -/
def indentTwo (s : String) : String :=
  ⟨List.intercalate ['\n']
    ((splitLines s.data).map
      (fun l => if lineHasContent l then ' ' :: ' ' :: l else l))⟩

namespace ContentArea

/-- The style dictionary of ContentArea; tags outside the four keys are
never looked up by the renderer. -/
def style : Tag → Option String
  | Tag.Section => some "class:title"
  | Tag.Text => some "class:text"
  | Tag.Strong => some "class:strong"
  | Tag.Emphasis => some "class:emphasis"
  | _ => none

/-- ContentArea get_separator: a single blank-line span. -/
def get_separator : List Span := [⟨"", "\n\n"⟩]

/-- ContentArea parse_code_block: indent the raw text of the block by two
columns, then either tokenize it with the highlighter resolved for the
declared language, or fall back to one class:text span of the indented
text. -/
def parse_code_block (reg : Registry) (node : DocumentNode) : List Span :=
  let code := indentTwo node.text
  match reg node.options.language with
  | some lexer => lexer code
  | none => [⟨"class:text", code⟩]

/-- The Title-styled span emitted for a Section node: the title option
styled with the Section entry of the style dictionary.  An absent title
degrades to the empty text (the accessor of the external document model,
modelled from the spec). -/
def titleSpan (node : DocumentNode) : Span :=
  ⟨(style Tag.Section).getD "", (node.options.title).getD ""⟩

/-- The loop body of ContentArea get_content over the children of
`node`: dispatch on the tag of each child.  `recur` stands for the
recursive self-call of get_content; note that on a Section child the
source recurses on `node` — the parent — not on the child. -/
def get_content_children (recur : DocumentNode → Option (List Span))
    (reg : Registry) (node : DocumentNode) :
    List DocumentNode → Option (List Span)
  | [] => some []
  | child :: rest =>
    let first : Option (List Span) :=
      match child.tagname with
      | Tag.Section => recur node
      | Tag.Paragraph =>
        match recur child with
        | some spans => some (get_separator ++ spans)
        | none => none
      | Tag.CodeBlock => some (get_separator ++ parse_code_block reg child)
      | Tag.TestBlock => some [⟨"", "\n\n [TestBlock]"⟩]
      | Tag.Text => some [⟨(style Tag.Text).getD "", child.text⟩]
      | Tag.Strong => some [⟨(style Tag.Strong).getD "", child.text⟩]
      | Tag.Emphasis => some [⟨(style Tag.Emphasis).getD "", child.text⟩]
      | Tag.Other => some []
    match first, get_content_children recur reg node rest with
    | some xs, some ys => some (xs ++ ys)
    | _, _ => none

/-- ContentArea get_content with an explicit recursion-depth budget
`fuel`: each nested self-call of the python function consumes one unit,
and `none` means the budget was exhausted — the python recursion at that
depth has not returned yet.  A Section node first emits the Title span
for its title option, then the spans of its children in order. -/
def get_content (reg : Registry) : Nat → DocumentNode → Option (List Span)
  | 0, _ => none
  | fuel + 1, node =>
    let head : List Span :=
      if node.tagname = Tag.Section then [titleSpan node] else []
    match get_content_children (get_content reg fuel) reg node node.children with
    | some spans => some (head ++ spans)
    | none => none

end ContentArea

/-- The WindowContainer navigation stack: the `pages` list, with the top
of the stack at the end of the list, as in the python list used with
append and pop.  Widgets are opaque; the stack never inspects them. -/
structure WindowContainer (W : Type) where
  pages : List W
deriving DecidableEq

namespace WindowContainer

/-- WindowContainer get_container: the top page, or the default
container of the component when the stack is empty. -/
def get_container (default : W) (s : WindowContainer W) : W :=
  s.pages.getLast?.getD default

/-- WindowContainer push: append the widget and trigger the focus hook.
The boolean of the result records whether the focus hook ran. -/
def push (s : WindowContainer W) (w : W) : WindowContainer W × Bool :=
  (⟨s.pages ++ [w]⟩, true)

/-- WindowContainer pop: return unchanged (and without the focus hook)
when the stack has at most one page; otherwise drop the top page and
trigger the focus hook.  The boolean records whether the hook ran. -/
def pop (s : WindowContainer W) : WindowContainer W × Bool :=
  if s.pages.length ≤ 1 then (s, false)
  else (⟨s.pages.dropLast⟩, true)

/-- WindowContainer reset: replace the whole stack by the single given
widget, or by the default container when none is given.  The source
never calls the focus hook here, so the boolean is always false. -/
def reset (default : W) (s : WindowContainer W) (w : Option W) :
    WindowContainer W × Bool :=
  (⟨[w.getD default]⟩, false)

end WindowContainer

/-- One operation on a WindowContainer stack. -/
inductive StackOp (W : Type) where
  | push (w : W)
  | pop
  | reset (w : Option W)

/-- True for the operations that initialize the stack: push and reset. -/
def StackOp.isInit : StackOp W → Bool
  | .push _ => true
  | .pop => false
  | .reset _ => true

/-- Apply one stack operation, keeping only the resulting state. -/
def applyOp (default : W) (s : WindowContainer W) : StackOp W → WindowContainer W
  | .push w => (s.push w).1
  | .pop => s.pop.1
  | .reset w => (WindowContainer.reset default s w).1

/-- Apply a sequence of stack operations from left to right. -/
def applyOps (default : W) (s : WindowContainer W) (ops : List (StackOp W)) :
    WindowContainer W :=
  ops.foldl (applyOp default) s

/-- The SidebarMenu component: its WindowContainer stack together with a
count of how many times the external set_title action has run.  The
set_title capability lives in lira.tui.utils, outside the sources given
here; modelled from the spec as an opaque zero-argument action, observed
by counting its invocations. -/
structure SidebarMenu (W : Type) where
  stack : WindowContainer W
  titleResets : Nat
deriving DecidableEq

/-- SidebarMenu pop: run the WindowContainer pop, then, when the
resulting stack has at most one page, invoke set_title. -/
def SidebarMenu.pop (m : SidebarMenu W) : SidebarMenu W × Bool :=
  let r := m.stack.pop
  if r.1.pages.length ≤ 1 then (⟨r.1, m.titleResets + 1⟩, r.2)
  else (⟨r.1, m.titleResets⟩, r.2)

/-- The StatusBar component.  Pages hold the text of the status area
widget currently installed; `history` is the append-only log of every
status ever shown; `redraws` counts the forced-redraw requests sent to
the application (get_app().invalidate()); `now` is the clock of the
event loop, modelled from the spec as advancing by exactly the slept
amount at each await of asyncio.sleep. -/
structure StatusBar where
  pages : List String
  history : List String
  redraws : Nat
  now : ℚ
deriving DecidableEq

namespace StatusBar

/-- StatusBar update_status: append the status to the history, reset the
stack to a fresh status area showing it, and force a redraw. -/
def update_status (s : StatusBar) (status : String) : StatusBar :=
  { pages := [status]
    history := s.history ++ [status]
    redraws := s.redraws + 1
    now := s.now }

/-- Advance the event-loop clock by an await of asyncio.sleep. -/
def sleep (s : StatusBar) (d : ℚ) : StatusBar :=
  { s with now := s.now + d }

/-- StatusBar notify run to completion with no overlapping notify call:
sleep the fixed warm-up pause of one tenth of a time unit, show the
text, sleep the given delay, then clear the status.  Besides the final
state the result records the instants of the two update_status calls. -/
def notify (s : StatusBar) (text : String) (delay : ℚ) :
    StatusBar × ℚ × ℚ :=
  let s1 := s.sleep (1 / 10)
  let s2 := s1.update_status text
  let s3 := s2.sleep delay
  let s4 := s3.update_status ""
  (s4, s1.now, s3.now)

end StatusBar

/-- An options record with no title and an empty language. -/
def noOptions : NodeOptions := ⟨none, ""⟩

/-- The example tree of the spec: one Section titled T whose two
Paragraph children hold one Text node each, A and B. -/
def exampleTree : DocumentNode :=
  .mk .Section ⟨some "T", ""⟩
    [.mk .Paragraph noOptions [.mk .Text noOptions [] "A"] "",
     .mk .Paragraph noOptions [.mk .Text noOptions [] "B"] ""] ""

/-- A Section holding a single nested Section child. -/
def nestedSectionTree : DocumentNode :=
  .mk .Section ⟨some "S", ""⟩ [.mk .Section ⟨some "C", ""⟩ [] ""] ""

/-- Another Section holding a nested Section child. -/
def nestedSectionTree2 : DocumentNode :=
  .mk .Section ⟨some "X", ""⟩ [.mk .Section ⟨some "Y", ""⟩ [] ""] ""

/-- A Section node whose title option is absent. -/
def untitledSection : DocumentNode := .mk .Section ⟨none, ""⟩ [] "x"

/-- A registry resolving exactly the language python, to a highlighter
that wraps the whole text in one token span. -/
def pythonRegistry : Registry :=
  fun lang => if lang = "python" then some (fun code => [⟨"tok", code⟩]) else none

/-- A CodeBlock node with declared language python. -/
def pyBlock : DocumentNode := .mk .CodeBlock ⟨none, "python"⟩ [] "print(1)"

/-! Stack lemmas shared by the theorems below. -/

theorem applyOp_length_pos {W : Type} (d : W) (s : WindowContainer W)
    (op : StackOp W) (h : 1 ≤ s.pages.length) :
    1 ≤ (applyOp d s op).pages.length := by
  cases op with
  | push w =>
    simp only [applyOp, WindowContainer.push, List.length_append,
      List.length_cons, List.length_nil]
    omega
  | reset w => simp [applyOp, WindowContainer.reset]
  | pop =>
    by_cases hl : s.pages.length ≤ 1
    · simpa [applyOp, WindowContainer.pop, hl] using h
    · simp only [applyOp, WindowContainer.pop, hl, if_false,
        List.length_dropLast]
      omega

theorem applyOps_length_pos {W : Type} (d : W) (ops : List (StackOp W)) :
    ∀ s : WindowContainer W, 1 ≤ s.pages.length →
      1 ≤ (applyOps d s ops).pages.length := by
  induction ops with
  | nil => intro s h; simpa [applyOps] using h
  | cons op rest ih =>
    intro s h
    simpa [applyOps, List.foldl_cons] using ih _ (applyOp_length_pos d s op h)

/-- C1: once a WindowContainer stack has been initialized by at least one
push or reset, any further finite sequence of push, pop and reset
operations leaves its depth at least 1 at every point: for an arbitrary
prefix `pre`, an initializing operation `op`, and an arbitrary
continuation `post`, the resulting stack is non-empty. -/
theorem windowContainer_never_empty_after_init {W : Type} (d : W)
    (s : WindowContainer W) (pre post : List (StackOp W)) (op : StackOp W)
    (h : op.isInit = true) :
    1 ≤ (applyOps d (applyOp d (applyOps d s pre) op) post).pages.length := by
  apply applyOps_length_pos
  cases op with
  | push w =>
    simp only [applyOp, WindowContainer.push, List.length_append,
      List.length_cons, List.length_nil]
    omega
  | pop => simp [StackOp.isInit] at h
  | reset w => simp [applyOp, WindowContainer.reset]

/-- Witness for C1 at a concrete run: start from the empty stack, push
once, then pop twice and reset; the final depth is still at least 1. -/
theorem windowContainer_never_empty_after_init_witness :
    StackOp.isInit (StackOp.push 7 : StackOp Nat) = true ∧
    1 ≤ (applyOps 0 (applyOp 0 (applyOps 0 (⟨[]⟩ : WindowContainer Nat) [])
        (StackOp.push 7))
        [StackOp.pop, StackOp.pop, StackOp.reset none]).pages.length :=
  ⟨rfl, windowContainer_never_empty_after_init 0 ⟨[]⟩ []
    [StackOp.pop, StackOp.pop, StackOp.reset none] (StackOp.push 7) rfl⟩

/-- C6: when the stack holds at most one page, WindowContainer pop is a
no-op: the state is returned unchanged, the focus hook does not run (and
hence the current view of get_container is unchanged), and pop is a
total function, so no fault is raised. -/
theorem windowContainer_pop_noop_at_floor {W : Type} (d : W)
    (s : WindowContainer W) (h : s.pages.length ≤ 1) :
    s.pop = (s, false) ∧ s.pop.1.get_container d = s.get_container d := by
  have hp : s.pop = (s, false) := by simp [WindowContainer.pop, h]
  exact ⟨hp, by rw [hp]⟩

/-- Witness for C6: pop on a depth-1 stack returns it unchanged and does
not trigger the focus hook. -/
theorem windowContainer_pop_noop_at_floor_witness :
    (⟨[5]⟩ : WindowContainer Nat).pages.length ≤ 1 ∧
    (⟨[5]⟩ : WindowContainer Nat).pop = (⟨[5]⟩, false) :=
  ⟨by decide, (windowContainer_pop_noop_at_floor 0 ⟨[5]⟩ (by decide)).1⟩

/-- C10: reset replaces the whole stack by the single given widget (or
by the component default when none is given) and never triggers the
focus hook, while push always triggers it and a non-trivial pop (depth
above 1) triggers it as well. -/
theorem windowContainer_reset_never_focuses {W : Type} (d : W)
    (s : WindowContainer W) (w : W) :
    (WindowContainer.reset d s (some w)).1.pages = [w] ∧
    (WindowContainer.reset d s none).1.pages = [d] ∧
    (WindowContainer.reset d s (some w)).2 = false ∧
    (WindowContainer.reset d s none).2 = false ∧
    (s.push w).2 = true ∧
    (1 < s.pages.length → s.pop.2 = true) := by
  refine ⟨rfl, rfl, rfl, rfl, rfl, fun h => ?_⟩
  have h1 : ¬ s.pages.length ≤ 1 := by omega
  simp [WindowContainer.pop, h1]

/-- Witness for C10: on a depth-2 stack, reset installs exactly the
given widget without the focus hook, and pop does trigger the hook. -/
theorem windowContainer_reset_never_focuses_witness :
    (WindowContainer.reset 0 (⟨[1, 2]⟩ : WindowContainer Nat) (some 9)).1.pages
        = [9] ∧
    (WindowContainer.reset 0 (⟨[1, 2]⟩ : WindowContainer Nat) (some 9)).2
        = false ∧
    (⟨[1, 2]⟩ : WindowContainer Nat).pop.2 = true :=
  ⟨(windowContainer_reset_never_focuses 0 ⟨[1, 2]⟩ 9).1,
    (windowContainer_reset_never_focuses 0 ⟨[1, 2]⟩ 9).2.2.1,
    (windowContainer_reset_never_focuses 0 ⟨[1, 2]⟩ 9).2.2.2.2.2 (by decide)⟩

/-- C7 counterexample: on a SidebarMenu whose stack has depth 1, pop is
a no-op on the stack, yet the external set_title action still runs once
— the claim says it must run only on a pop that goes from depth 2 to
depth 1. -/
theorem sidebarMenu_pop_title_reset_cex :
    ((⟨⟨[0]⟩, 0⟩ : SidebarMenu Nat).stack.pages.length = 1) ∧
    ((⟨⟨[0]⟩, 0⟩ : SidebarMenu Nat).pop.1.stack = ⟨[0]⟩) ∧
    ((⟨⟨[0]⟩, 0⟩ : SidebarMenu Nat).pop.1.titleResets = 1) := by
  decide

/-- C7 amended: SidebarMenu pop invokes the external set_title action
exactly once on every pop whose resulting depth is at most 1 — the pop
from depth 2 to depth 1, and also the no-op pops at depth at most 1 —
and never on a pop that leaves depth 2 or more. -/
theorem sidebarMenu_pop_title_reset {W : Type} (m : SidebarMenu W) :
    (m.stack.pages.length = 2 → m.pop.1.titleResets = m.titleResets + 1) ∧
    (m.stack.pages.length ≤ 1 → m.pop.1.titleResets = m.titleResets + 1) ∧
    (2 < m.stack.pages.length → m.pop.1.titleResets = m.titleResets) := by
  refine ⟨?_, ?_, ?_⟩ <;> intro h
  · have h1 : ¬ m.stack.pages.length ≤ 1 := by omega
    simp [SidebarMenu.pop, WindowContainer.pop, h1, List.length_dropLast, h]
  · simp [SidebarMenu.pop, WindowContainer.pop, h]
  · have h1 : ¬ m.stack.pages.length ≤ 1 := by omega
    have h2 : ¬ m.stack.pages.length - 1 ≤ 1 := by omega
    simp [SidebarMenu.pop, WindowContainer.pop, h1, List.length_dropLast, h2]

/-- Witness for C7 amended: a pop from depth 2 runs set_title exactly
once, and a pop from depth 3 does not run it. -/
theorem sidebarMenu_pop_title_reset_witness :
    ((⟨⟨[1, 2]⟩, 5⟩ : SidebarMenu Nat).pop.1.titleResets = 5 + 1) ∧
    ((⟨⟨[1, 2, 3]⟩, 5⟩ : SidebarMenu Nat).pop.1.titleResets = 5) :=
  ⟨(sidebarMenu_pop_title_reset ⟨⟨[1, 2]⟩, 5⟩).1 rfl,
    (sidebarMenu_pop_title_reset ⟨⟨[1, 2, 3]⟩, 5⟩).2.2 (by decide)⟩

/-! Renderer lemmas shared by the theorems below. -/

theorem get_content_succ (reg : Registry) (n : Nat) (node : DocumentNode) :
    ContentArea.get_content reg (n + 1) node =
      match ContentArea.get_content_children (ContentArea.get_content reg n)
          reg node node.children with
      | some spans =>
        some ((if node.tagname = Tag.Section then [ContentArea.titleSpan node]
          else []) ++ spans)
      | none => none := rfl

theorem get_content_section_head_none (reg : Registry) :
    ∀ (fuel : Nat) (node c : DocumentNode) (rest : List DocumentNode),
      node.children = c :: rest → c.tagname = Tag.Section →
      ContentArea.get_content reg fuel node = none := by
  intro fuel
  induction fuel with
  | zero => intro node c rest _ _; rfl
  | succ n ih =>
    intro node c rest hc ht
    have hrec : ContentArea.get_content reg n node = none := ih node c rest hc ht
    rw [get_content_succ, hc]
    simp [ContentArea.get_content_children, ht, hrec]

/-- C2 (code bug): on a child tagged Section the source recurses on the
parent node instead of the child, so for a Section whose child is a
nested Section the renderer never emits the content of the child: every
recursion-depth budget is exhausted without producing any spans.  The
claim states the intended behavior — recursing into the child and
emitting its title and children inline. -/
theorem contentArea_section_child_recursion_diverges :
    ∀ fuel : Nat,
      ContentArea.get_content emptyRegistry fuel nestedSectionTree = none :=
  fun fuel => get_content_section_head_none emptyRegistry fuel
    nestedSectionTree (.mk .Section ⟨some "C", ""⟩ [] "") [] rfl rfl

/-- C3 counterexample: rendering does not terminate on every finite
tree — for a Section holding a nested Section child, no recursion-depth
budget makes get_content return. -/
theorem contentArea_render_terminates_cex :
    ¬ ∃ fuel : Nat,
      (ContentArea.get_content emptyRegistry fuel nestedSectionTree2).isSome
        = true := by
  rintro ⟨fuel, h⟩
  rw [get_content_section_head_none emptyRegistry fuel nestedSectionTree2
    (.mk .Section ⟨some "Y", ""⟩ [] "") [] rfl rfl] at h
  simp at h

theorem get_content_isSome_of_height_le (reg : Registry) :
    ∀ fuel : Nat, ∀ node : DocumentNode, noSectionChild node = true →
      node.height ≤ fuel →
      (ContentArea.get_content reg fuel node).isSome = true := by
  intro fuel
  induction fuel with
  | zero =>
    intro node _ hh
    cases node with
    | mk t o cs txt =>
      rw [DocumentNode.height] at hh
      omega
  | succ n ih =>
    intro node hns hh
    cases node with
    | mk t o cs txt =>
      have hns' : noSectionChildList cs = true := by
        simpa [noSectionChild] using hns
      have hh' : heightList cs ≤ n := by
        rw [DocumentNode.height] at hh
        omega
      have hlist : ∀ ds : List DocumentNode, noSectionChildList ds = true →
          heightList ds ≤ n →
          (ContentArea.get_content_children (ContentArea.get_content reg n)
            reg (.mk t o cs txt) ds).isSome = true := by
        intro ds
        induction ds with
        | nil => intro _ _; rfl
        | cons c rest ihc =>
          intro hl hhl
          rw [heightList] at hhl
          have hch : c.height ≤ n := le_trans (Nat.le_max_left _ _) hhl
          have hrh : heightList rest ≤ n := le_trans (Nat.le_max_right _ _) hhl
          cases htag : c.tagname with
          | Section => simp [noSectionChildList, htag] at hl
          | Paragraph =>
            have hparts : noSectionChild c = true ∧
                noSectionChildList rest = true := by
              simpa [noSectionChildList, htag, Bool.and_eq_true] using hl
            obtain ⟨spans, hspans⟩ :=
              Option.isSome_iff_exists.mp (ih c hparts.1 hch)
            obtain ⟨ys, hys⟩ :=
              Option.isSome_iff_exists.mp (ihc hparts.2 hrh)
            simp [ContentArea.get_content_children, htag, hspans, hys]
          | CodeBlock =>
            have hparts : noSectionChild c = true ∧
                noSectionChildList rest = true := by
              simpa [noSectionChildList, htag, Bool.and_eq_true] using hl
            obtain ⟨ys, hys⟩ :=
              Option.isSome_iff_exists.mp (ihc hparts.2 hrh)
            simp [ContentArea.get_content_children, htag, hys]
          | TestBlock =>
            have hparts : noSectionChild c = true ∧
                noSectionChildList rest = true := by
              simpa [noSectionChildList, htag, Bool.and_eq_true] using hl
            obtain ⟨ys, hys⟩ :=
              Option.isSome_iff_exists.mp (ihc hparts.2 hrh)
            simp [ContentArea.get_content_children, htag, hys]
          | Text =>
            have hparts : noSectionChild c = true ∧
                noSectionChildList rest = true := by
              simpa [noSectionChildList, htag, Bool.and_eq_true] using hl
            obtain ⟨ys, hys⟩ :=
              Option.isSome_iff_exists.mp (ihc hparts.2 hrh)
            simp [ContentArea.get_content_children, htag, hys]
          | Strong =>
            have hparts : noSectionChild c = true ∧
                noSectionChildList rest = true := by
              simpa [noSectionChildList, htag, Bool.and_eq_true] using hl
            obtain ⟨ys, hys⟩ :=
              Option.isSome_iff_exists.mp (ihc hparts.2 hrh)
            simp [ContentArea.get_content_children, htag, hys]
          | Emphasis =>
            have hparts : noSectionChild c = true ∧
                noSectionChildList rest = true := by
              simpa [noSectionChildList, htag, Bool.and_eq_true] using hl
            obtain ⟨ys, hys⟩ :=
              Option.isSome_iff_exists.mp (ihc hparts.2 hrh)
            simp [ContentArea.get_content_children, htag, hys]
          | Other =>
            have hparts : noSectionChild c = true ∧
                noSectionChildList rest = true := by
              simpa [noSectionChildList, htag, Bool.and_eq_true] using hl
            obtain ⟨ys, hys⟩ :=
              Option.isSome_iff_exists.mp (ihc hparts.2 hrh)
            simp [ContentArea.get_content_children, htag, hys]
      obtain ⟨spans, hspans⟩ := Option.isSome_iff_exists.mp (hlist cs hns' hh')
      rw [get_content_succ]
      simp only [DocumentNode.children, hspans, Option.isSome_some]

/-- C3 amended/corrected: rendering terminates for every finite tree in
which no node has a child tagged Section: a recursion-depth budget equal
to the height of the tree makes get_content return. -/
theorem contentArea_render_terminates (reg : Registry) (t : DocumentNode)
    (h : noSectionChild t = true) :
    (ContentArea.get_content reg t.height t).isSome = true :=
  get_content_isSome_of_height_le reg t.height t h le_rfl

/-- Witness for C3 amended: the example tree has no nested Section, and
rendering it with budget equal to its height returns. -/
theorem contentArea_render_terminates_witness :
    noSectionChild exampleTree = true ∧
    (ContentArea.get_content emptyRegistry exampleTree.height
      exampleTree).isSome = true :=
  ⟨rfl, contentArea_render_terminates emptyRegistry exampleTree rfl⟩

/-- C4: for the example tree — one Section titled T with two Paragraph
children each holding one Text node, A and B — the rendered spans are
exactly the Title span T, a blank-line separator, the Text span A, a
blank-line separator, and the Text span B, in that order, whatever the
highlighter registry (budget 3 covers the nesting depth of the tree). -/
theorem contentArea_example_tree_spans (reg : Registry) :
    ContentArea.get_content reg 3 exampleTree =
      some [⟨"class:title", "T"⟩, ⟨"", "\n\n"⟩, ⟨"class:text", "A"⟩,
        ⟨"", "\n\n"⟩, ⟨"class:text", "B"⟩] := rfl

/-- C8: for every Section node whose title option is absent, whenever
get_content returns under some budget its first span is the empty
Title-styled span; the embedding is total, so nothing faults. -/
theorem contentArea_absent_title_empty_span (reg : Registry) (fuel : Nat)
    (node : DocumentNode) (spans : List Span)
    (htag : node.tagname = Tag.Section)
    (htitle : node.options.title = none)
    (hrun : ContentArea.get_content reg fuel node = some spans) :
    ∃ rest, spans = ⟨"class:title", ""⟩ :: rest := by
  cases fuel with
  | zero => exact absurd hrun (by simp [ContentArea.get_content])
  | succ n =>
    rw [get_content_succ] at hrun
    cases hcc : ContentArea.get_content_children
        (ContentArea.get_content reg n) reg node node.children with
    | none => rw [hcc] at hrun; simp at hrun
    | some cspans =>
      rw [hcc] at hrun
      simp only [htag, if_pos, Option.some.injEq] at hrun
      refine ⟨cspans, ?_⟩
      rw [← hrun]
      simp [ContentArea.titleSpan, ContentArea.style, htitle]

/-- Witness for C8: an untitled Section with no children renders to the
single empty Title span. -/
theorem contentArea_absent_title_empty_span_witness :
    ∃ rest, [(⟨"class:title", ""⟩ : Span)] = ⟨"class:title", ""⟩ :: rest :=
  contentArea_absent_title_empty_span emptyRegistry 1 untitledSection
    [⟨"class:title", ""⟩] rfl rfl rfl

/-- C5: parse_code_block indents the raw text of the block by two
columns; when the registry resolves a highlighter for the declared
language, the output is the per-token spans of that highlighter over the
indented text, and when no highlighter resolves, the output is exactly
one class:text span holding the indented text. -/
theorem contentArea_parse_code_block (reg : Registry) (node : DocumentNode) :
    (∀ hl, reg node.options.language = some hl →
      ContentArea.parse_code_block reg node = hl (indentTwo node.text)) ∧
    (reg node.options.language = none →
      ContentArea.parse_code_block reg node =
        [⟨"class:text", indentTwo node.text⟩]) := by
  constructor
  · intro hl h
    simp [ContentArea.parse_code_block, h]
  · intro h
    simp [ContentArea.parse_code_block, h]

/-- Witness for C5: a python CodeBlock under a registry resolving python
renders through the highlighter, and under the empty registry renders as
one class:text span of the indented text. -/
theorem contentArea_parse_code_block_witness :
    ContentArea.parse_code_block pythonRegistry pyBlock =
      [(⟨"tok", indentTwo pyBlock.text⟩ : Span)] ∧
    ContentArea.parse_code_block emptyRegistry pyBlock =
      [⟨"class:text", indentTwo pyBlock.text⟩] :=
  ⟨(contentArea_parse_code_block pythonRegistry pyBlock).1
      (fun code => [⟨"tok", code⟩]) rfl,
    (contentArea_parse_code_block emptyRegistry pyBlock).2 rfl⟩

/-- C9: a notify run that completes with no overlapping notify call
appends to the history, in order, the text (at the instant right after
the fixed warm-up pause of one tenth of a time unit) and then the empty
string, the clearing update coming at least delay time units after the
first one; each update forces one redraw (two in total) and the status
area ends cleared. -/
theorem statusBar_notify_two_phase (s : StatusBar) (text : String)
    (delay : ℚ) :
    (s.notify text delay).1.history = s.history ++ [text, ""] ∧
    (s.notify text delay).1.redraws = s.redraws + 2 ∧
    (s.notify text delay).2.1 = s.now + 1 / 10 ∧
    (s.notify text delay).2.1 + delay ≤ (s.notify text delay).2.2 ∧
    (s.notify text delay).1.pages = [""] := by
  refine ⟨?_, rfl, rfl, ?_, rfl⟩
  · simp [StatusBar.notify, StatusBar.update_status, StatusBar.sleep]
  · simp [StatusBar.notify, StatusBar.update_status, StatusBar.sleep]

end Lira
